import Mathlib

/-!
Shallow embedding of the CCrypt core (src/encryption.c, src/unnamed/part_000,
src/library.c).  Byte buffers are `List Nat` with entries below 256; a C
function that returns an `int` status and fills an output buffer is modelled
as `Except Int (List Nat)`, where `Except.ok` carries the buffer written on a
`SUCCESS` return and `Except.error` carries the nonzero status code.
Null-pointer guards are dropped (the embedding has no null buffers); the
`data_size <= 0` guards become emptiness tests, since a buffer's size is the
length of the list that models it.
-/

/-- Status code SUCCESS (src/ccrypt.h). -/
def SUCCESS : Int := 0

/-- Status code ERROR_FILE_NOT_FOUND (src/ccrypt.h). -/
def ERROR_FILE_NOT_FOUND : Int := -1

/-- Status code ERROR_INVALID_PATH (src/ccrypt.h). -/
def ERROR_INVALID_PATH : Int := -2

/-- Status code ERROR_INVALID_PASSWORD (src/ccrypt.h). -/
def ERROR_INVALID_PASSWORD : Int := -4

/-- Encryption method tag ENC_AES = 1 (src/ccrypt.h). -/
def ENC_AES : Nat := 1

/-- Encryption method tag ENC_XOR = 2 (src/ccrypt.h). -/
def ENC_XOR : Nat := 2

/-- Encryption method tag ENC_CAESAR = 3 (src/ccrypt.h). -/
def ENC_CAESAR : Nat := 3

/-- Key byte used at position `i` of the XOR loop: `password[i % pwlen]`
(src/encryption.c lines 524-526).  `List.getD` returns 0 when the index is
out of range, which only happens for the empty password, a case both cipher
functions reject before reaching the loop. -/
def xorKeyAt (password : List Nat) (i : Nat) : Nat :=
  password.getD (i % password.length) 0

/-- The body of the cipher loop `output[i] = input[i] ^ password[i % pwlen]`
(src/encryption.c lines 524-526), carrying the running index `i`.  The
assignment to the `unsigned char` output cell truncates to 8 bits, hence the
`% 256`. -/
def xorLoop (password : List Nat) : Nat → List Nat → List Nat
  | _, [] => []
  | i, b :: rest => ((b ^^^ xorKeyAt password i) % 256) :: xorLoop password (i + 1) rest

/-- Whole-buffer form of the XOR cipher loop shared verbatim by
`encrypt_data` (src/encryption.c lines 515-529) and `decrypt_data`
(src/encryption.c lines 541-555). -/
def xorWithPassword (data password : List Nat) : List Nat :=
  xorLoop password 0 data

/-- encrypt_data (src/encryption.c lines 515-529): guard
`!input_data || data_size <= 0 || !password || !output_data` gives
ERROR_INVALID_PATH, an empty password gives ERROR_INVALID_PASSWORD, otherwise
the XOR loop fills the output buffer and SUCCESS is returned. -/
def encrypt_data (input_data password : List Nat) : Except Int (List Nat) :=
  if input_data.length = 0 then .error ERROR_INVALID_PATH
  else if password.length = 0 then .error ERROR_INVALID_PASSWORD
  else .ok (xorWithPassword input_data password)

/-- decrypt_data (src/encryption.c lines 541-555): character-for-character the
same guards and the same XOR loop as `encrypt_data`, with the input parameter
named `encrypted_data` instead of `input_data`. -/
def decrypt_data (encrypted_data password : List Nat) : Except Int (List Nat) :=
  if encrypted_data.length = 0 then .error ERROR_INVALID_PATH
  else if password.length = 0 then .error ERROR_INVALID_PASSWORD
  else .ok (xorWithPassword encrypted_data password)

/-- Combined outer/inner loop of compress_data (src/encryption.c lines
488-501): `current` is the byte whose run is being counted, `count` the run
length so far; the inner `while` keeps extending the run while the next byte
matches and `count < 255`, then the pair `(count, current)` is emitted and
scanning resumes. -/
def rleGo : Nat → Nat → List Nat → List Nat
  | current, count, [] => [count, current]
  | current, count, b :: rest =>
    if b = current ∧ count < 255 then rleGo current (count + 1) rest
    else count :: current :: rleGo b 1 rest

/-- Run-length encoding pass of compress_data (src/encryption.c lines
485-502): the pair stream written to `output_data` before the
verbatim-fallback size check. -/
def rleEncode : List Nat → List Nat
  | [] => []
  | b :: rest => rleGo b 1 rest

/-- compress_data (src/encryption.c lines 480-509): rejects an empty input
(`input_size <= 0`) with ERROR_INVALID_PATH, otherwise runs the RLE loop; if
the encoded stream is not strictly smaller than the input
(`*output_size >= input_size`), the input is copied verbatim and the input
size is reported. -/
def compress_data (input_data : List Nat) : Except Int (List Nat) :=
  if input_data.length = 0 then .error ERROR_INVALID_PATH
  else
    let out := rleEncode input_data
    if out.length ≥ input_data.length then .ok input_data
    else .ok out

/-- Expansion loop of decompress_data (src/unnamed/part_000 lines 712-719):
each `(count, value)` pair is replaced by `count` copies of `value`.  When the
buffer has odd length the C loop reads `compressed_data[i + 1]` one past the
end; that indeterminate byte is modelled as 0 and no theorem depends on the
single-element branch. -/
def rleDecode : List Nat → List Nat
  | [] => []
  | [count] => List.replicate count 0
  | count :: value :: rest => List.replicate count value ++ rleDecode rest

/-- decompress_data (src/unnamed/part_000 lines 706-723): rejects an empty
buffer (`compressed_size <= 0`) with ERROR_INVALID_PATH, otherwise expands the
`(count, value)` pairs unconditionally — it never detects whether the
compressor actually stored pairs or fell back to a verbatim copy. -/
def decompress_data (compressed_data : List Nat) : Except Int (List Nat) :=
  if compressed_data.length = 0 then .error ERROR_INVALID_PATH
  else .ok (rleDecode compressed_data)

/-- decrypt_data as compiled into src/unnamed/part_000 (lines 682-695), the
version called by decrypt_file there: same XOR loop, but its guard checks
only the pointers — there is no `data_size <= 0` test, so a zero-length
buffer is transformed (to the empty output) and accepted. -/
def decrypt_data_part000 (encrypted_data password : List Nat) : Except Int (List Nat) :=
  if password.length = 0 then .error ERROR_INVALID_PASSWORD
  else .ok (xorWithPassword encrypted_data password)

/-- Data path of encrypt_file (src/encryption.c lines 324-425), mapping the
bytes of the input file to the bytes written to the output file.  With
compression requested the result of compress_data is used (its status is
ignored by the C code; compress_data only fails on an empty input, in which
case `processed_size` keeps the value `input_size = 0`, so the model's
`.error` branch returning `content` agrees with the empty buffer written).
The method switch encrypts with the XOR cipher for ENC_XOR, copies the
payload unchanged for ENC_CAESAR and ENC_AES, and fails with
ERROR_INVALID_PATH otherwise.  (encrypt_data's status is also ignored by the
C code, which would then write indeterminate bytes; the model surfaces the
error code instead, and no theorem below touches that branch.)  The output
is the payload alone: no magic, flag or seed bytes precede it. -/
def encrypt_file (content password : List Nat) (use_compression : Bool)
    (method : Nat) : Except Int (List Nat) :=
  let processed :=
    if use_compression then
      match compress_data content with
      | .ok c => c
      | .error _ => content
    else content
  if method = ENC_XOR then
    match encrypt_data processed password with
    | .ok e => .ok e
    | .error e => .error e
  else if method = ENC_CAESAR then .ok processed
  else if method = ENC_AES then .ok processed
  else .error ERROR_INVALID_PATH

/-- Data path of decrypt_file (src/unnamed/part_000 lines 525-613), mapping
the bytes of the encrypted file to the bytes written to the output file.  The
whole file is XOR-decrypted with decrypt_data (the part_000 version defined
above) and, when the caller's metadata says the artifact was compressed, the
result is fed to decompress_data.  No length check, no magic check and no
password verification are performed on the input. -/
def decrypt_file (enc_content password : List Nat) (is_compressed : Bool) :
    Except Int (List Nat) :=
  match decrypt_data_part000 enc_content password with
  | .error e => .error e
  | .ok dec =>
    if is_compressed then
      match decompress_data dec with
      | .error e => .error e
      | .ok out => .ok out
    else .ok dec

/-- file_metadata_t (src/ccrypt.h): the fields the verified operations read or
write.  The two C strings are modelled as byte lists, `is_compressed` (an
`int` used as a flag) as a `Bool`. -/
structure FileMetadata where
  original_filename : List Nat
  encrypted_filename : List Nat
  original_size : Int
  encrypted_size : Int
  encryption_id : Nat
  encryption_method : Int
  is_compressed : Bool
deriving DecidableEq, Repr

instance : Inhabited FileMetadata :=
  ⟨⟨[], [], 0, 0, 0, 0, false⟩⟩

/-- encryption_library_t (src/ui.h, linked-list variant used by src/library.c):
`records` models the `file_node_t` chain from `head`, in list order. -/
structure EncryptionLibrary where
  records : List FileMetadata
  count : Int
  is_modified : Bool
  next_id : Nat
deriving Repr

/-- load_encryption_library (src/library.c lines 34-43): the loader stub
clears the list and starts the id counter at 1. -/
def load_encryption_library : EncryptionLibrary :=
  { records := [], count := 0, is_modified := false, next_id := 1 }

/-- add_file_to_library (src/library.c lines 60-86): appends a node holding a
copy of the metadata to the end of the chain, increments `count` and sets the
dirty flag.  Allocation is modelled as succeeding, so the status is always
SUCCESS. -/
def add_file_to_library (library : EncryptionLibrary) (metadata : FileMetadata) :
    EncryptionLibrary × Int :=
  ({ library with
      records := library.records ++ [metadata]
      count := library.count + 1
      is_modified := true }, SUCCESS)

/-- remove_file_from_library (src/library.c lines 95-115): an index outside
`0 ≤ index < count` is rejected with ERROR_INVALID_PATH; otherwise the walk
stops at node `index` — if the chain ends first (`!cur`) the same error is
returned with the library untouched, else the node is unlinked, `count` is
decremented and the dirty flag set. -/
def remove_file_from_library (library : EncryptionLibrary) (index : Int) :
    EncryptionLibrary × Int :=
  if index < 0 ∨ library.count ≤ index then (library, ERROR_INVALID_PATH)
  else if index.toNat < library.records.length then
    ({ library with
        records := library.records.eraseIdx index.toNat
        count := library.count - 1
        is_modified := true }, SUCCESS)
  else (library, ERROR_INVALID_PATH)

/-- Library-insertion step of encrypt_file_workflow (src/encryption.c lines
305-312): the fresh record's `encryption_id` is set to `library->next_id`,
the record is added, and on SUCCESS the counter is incremented.  (The model's
add_file_to_library always succeeds, mirroring successful allocation.) -/
def encrypt_file_workflow (library : EncryptionLibrary) (metadata : FileMetadata) :
    EncryptionLibrary :=
  let md := { metadata with encryption_id := library.next_id }
  let r := add_file_to_library library md
  if r.2 = SUCCESS then { r.1 with next_id := r.1.next_id + 1 } else r.1

/-- One library mutation for the count invariant: an insertion through
add_file_to_library or a removal through remove_file_from_library. -/
inductive LibOp where
  | insert (metadata : FileMetadata)
  | remove (index : Int)

/-- Apply one LibOp to the library (the returned status is discarded, as a
caller sequencing further operations would). -/
def applyLibOp (library : EncryptionLibrary) : LibOp → EncryptionLibrary
  | .insert m => (add_file_to_library library m).1
  | .remove i => (remove_file_from_library library i).1

/-- Run a sequence of insert/remove operations from the freshly loaded empty
library. -/
def runLibOps (ops : List LibOp) : EncryptionLibrary :=
  ops.foldl applyLibOp load_encryption_library

/-- One step of the id-assignment history: an encrypt-and-insert through
encrypt_file_workflow, or a removal through remove_file_from_library. -/
inductive WorkflowOp where
  | encryptInsert (metadata : FileMetadata)
  | remove (index : Int)

/-- Apply one WorkflowOp, recording in the ghost history every id the
workflow assigns at insertion time. -/
def applyWorkflowOp (s : EncryptionLibrary × List Nat) :
    WorkflowOp → EncryptionLibrary × List Nat
  | .encryptInsert m => (encrypt_file_workflow s.1 m, s.2 ++ [s.1.next_id])
  | .remove i => ((remove_file_from_library s.1 i).1, s.2)

/-- Run a sequence of workflow operations from the freshly loaded library,
with an empty assignment history. -/
def runWorkflow (ops : List WorkflowOp) : EncryptionLibrary × List Nat :=
  ops.foldl applyWorkflowOp (load_encryption_library, [])

/-- C `tolower` on a byte, as used by strcasecmp: map A-Z (65-90) to a-z. -/
def toLowerByte (c : Nat) : Nat :=
  if 65 ≤ c ∧ c ≤ 90 then c + 32 else c

/-- Case-insensitive C-string comparison (the strcasecmp call commented out
in cmp_name, src/library.c line 320), on the byte lists that model the two
strings: the sign of the first case-folded difference, with a shorter string
ordered before its extensions (the terminating NUL compares below every
nonzero byte). -/
def strcasecmp : List Nat → List Nat → Int
  | [], [] => 0
  | [], _ :: _ => -1
  | _ :: _, [] => 1
  | a :: as, b :: bs =>
    if toLowerByte a < toLowerByte b then -1
    else if toLowerByte b < toLowerByte a then 1
    else strcasecmp as bs

/-- The ordering the specification demands after sort-by-name: original
filenames case-insensitively non-decreasing along the store. -/
def sortedByName (records : List FileMetadata) : Prop :=
  List.Pairwise
    (fun x y => strcasecmp x.original_filename y.original_filename ≤ 0) records

/-- cmp_name (src/library.c lines 316-321): its only statement,
`return strcasecmp(x->original_filename, y->original_filename)`, is commented
out, so control falls off the end of a non-void function and the value qsort
receives is indeterminate.  Whatever that value is, it cannot depend on the
two records being compared; the model therefore takes the returned value as
the parameter `garbage`, ignoring both arguments exactly as the compiled code
does. -/
def cmp_name (garbage : Int) (_x _y : FileMetadata) : Int := garbage

/-- sort_library_by_name (src/library.c lines 353-367): libraries with at
most one record are returned unchanged; otherwise the records are copied to
an array, sorted by qsort with the comparator cmp_name, and written back in
the new order.  qsort itself is external, so it is a parameter `qsortC`
consuming the comparator. -/
def sort_library_by_name
    (qsortC : (FileMetadata → FileMetadata → Int) → List FileMetadata → List FileMetadata)
    (garbage : Int) (library : EncryptionLibrary) : EncryptionLibrary :=
  if library.count ≤ 1 then library
  else { library with records := qsortC (cmp_name garbage) library.records }

/-! Helper lemmas about the XOR cipher loop. -/

lemma xorKeyAt_lt (password : List Nat) (hp : ∀ c ∈ password, c < 256)
    (i : Nat) : xorKeyAt password i < 256 := by
  unfold xorKeyAt
  rcases password with _ | ⟨c, cs⟩
  · simp [List.getD]
  · have hlen : i % (c :: cs).length < (c :: cs).length :=
      Nat.mod_lt _ (by simp)
    rw [List.getD_eq_getElem _ _ hlen]
    exact hp _ (List.getElem_mem hlen)

lemma xor_byte_roundtrip (b k : Nat) (hb : b < 256) (hk : k < 256) :
    ((b ^^^ k) % 256 ^^^ k) % 256 = b := by
  have h1 : b ^^^ k < 256 := Nat.xor_lt_two_pow (n := 8) hb hk
  rw [Nat.mod_eq_of_lt h1, Nat.xor_cancel_right, Nat.mod_eq_of_lt hb]

lemma xorLoop_length (password : List Nat) :
    ∀ (i : Nat) (data : List Nat), (xorLoop password i data).length = data.length := by
  intro i data
  induction data generalizing i with
  | nil => rfl
  | cons b rest ih => simp [xorLoop, ih]

lemma xorLoop_involutive (password : List Nat) (hp : ∀ c ∈ password, c < 256) :
    ∀ (i : Nat) (data : List Nat), (∀ b ∈ data, b < 256) →
      xorLoop password i (xorLoop password i data) = data := by
  intro i data
  induction data generalizing i with
  | nil => intro _; rfl
  | cons b rest ih =>
    intro hb
    have hbyte : b < 256 := hb b (by simp)
    have hkey : xorKeyAt password i < 256 := xorKeyAt_lt password hp i
    simp only [xorLoop]
    rw [xor_byte_roundtrip b _ hbyte hkey, ih (i + 1) (fun x hx => hb x (by simp [hx]))]

lemma xorWithPassword_length (data password : List Nat) :
    (xorWithPassword data password).length = data.length :=
  xorLoop_length password 0 data

lemma xorWithPassword_involutive (data password : List Nat)
    (hp : ∀ c ∈ password, c < 256) (hd : ∀ b ∈ data, b < 256) :
    xorWithPassword (xorWithPassword data password) password = data :=
  xorLoop_involutive password hp 0 data hd

/-- C1: the round-trip `decompress_data (compress_data x) = x` fails on the
code at the two-byte input `[1, 2]`.  compress_data accepts it, but the RLE
pair stream `[1, 1, 1, 2]` is not smaller than the input, so the input is
stored verbatim with no flag recording that fallback; decompress_data then
expands the verbatim bytes as a `(count, value)` pair and returns `[2]`, not
`[1, 2]`. -/
theorem compress_decompress_not_inverse_at_verbatim :
    compress_data [1, 2] = .ok [1, 2] ∧
    (compress_data [1, 2]).bind decompress_data = .ok [2] ∧
    (Except.ok [2] : Except Int (List Nat)) ≠ .ok [1, 2] :=
  ⟨rfl, rfl, by simp⟩

/-- C8 counterexample: compressing the empty byte sequence does not succeed
with empty output — the `input_size <= 0` guard fires first. -/
theorem compress_empty_not_ok :
    compress_data [] ≠ .ok [] := by
  simp [compress_data]

/-- C8 amended: compress_data rejects the empty byte sequence with
ERROR_INVALID_PATH instead of succeeding with empty output. -/
theorem compress_empty_rejected :
    compress_data [] = .error ERROR_INVALID_PATH := rfl

/-- C9: decrypt_data is the identical function to encrypt_data — same guards
in the same order, same error codes, same XOR loop — so on every input buffer
and password the two return the same status and the same output bytes. -/
theorem decrypt_data_equals_encrypt_data :
    ∀ (data password : List Nat), decrypt_data data password = encrypt_data data password :=
  fun _ _ => rfl

/-- C10: on a non-empty input compress_data reports at most the input size,
and whenever the run-length pair stream would be at least as large as the
input, the input is stored verbatim and exactly the input size is reported. -/
theorem compress_output_size_bounded (input_data : List Nat) (h : input_data ≠ []) :
    ((rleEncode input_data).length ≥ input_data.length →
      compress_data input_data = .ok input_data) ∧
    ∀ out, compress_data input_data = .ok out → out.length ≤ input_data.length := by
  have hne : ¬ input_data.length = 0 := by
    simpa [List.length_eq_zero] using h
  constructor
  · intro hge
    simp [compress_data, hne, hge]
  · intro out hout
    by_cases hge : (rleEncode input_data).length ≥ input_data.length
    · simp only [compress_data, hne, if_false, hge, if_true] at hout
      cases hout
      exact le_refl _
    · simp only [compress_data, hne, if_false, hge, if_true] at hout
      cases hout
      omega

/-- C10 witness: the one-byte input `[5]` is non-empty, its pair stream
`[1, 5]` is not smaller, so the byte is stored verbatim with reported size
1 ≤ 1. -/
theorem compress_output_size_bounded_witness :
    ([5] : List Nat) ≠ [] ∧
    (((rleEncode [5]).length ≥ ([5] : List Nat).length →
        compress_data [5] = .ok [5]) ∧
      ∀ out, compress_data [5] = .ok out → out.length ≤ ([5] : List Nat).length) :=
  ⟨by simp, compress_output_size_bounded [5] (by simp)⟩

/-- C7 counterexample: on the empty input buffer with the empty password the
cipher functions return ERROR_INVALID_PATH, not the InvalidPassword error —
the `data_size <= 0` guard precedes the password-length check. -/
theorem empty_password_empty_buffer_gives_invalid_path :
    encrypt_data [] [] = .error ERROR_INVALID_PATH ∧
    decrypt_data [] [] = .error ERROR_INVALID_PATH ∧
    ERROR_INVALID_PATH ≠ ERROR_INVALID_PASSWORD :=
  ⟨rfl, rfl, by decide⟩

/-- C7 amended: on every non-empty input buffer both cipher functions reject
an empty password with ERROR_INVALID_PASSWORD and produce no output. -/
theorem empty_password_rejected_nonempty_buffer (data : List Nat) (h : data ≠ []) :
    encrypt_data data [] = .error ERROR_INVALID_PASSWORD ∧
    decrypt_data data [] = .error ERROR_INVALID_PASSWORD := by
  have hne : ¬ data.length = 0 := by
    simpa [List.length_eq_zero] using h
  exact ⟨by simp [encrypt_data, hne], by simp [decrypt_data, hne]⟩

/-- C7 witness: the one-byte buffer `[0]` with the empty password. -/
theorem empty_password_rejected_nonempty_buffer_witness :
    ([0] : List Nat) ≠ [] ∧
    (encrypt_data [0] [] = .error ERROR_INVALID_PASSWORD ∧
      decrypt_data [0] [] = .error ERROR_INVALID_PASSWORD) :=
  ⟨by simp, empty_password_rejected_nonempty_buffer [0] (by simp)⟩

/-- C2 counterexample: on the empty byte sequence the cipher round-trip does
not return the input — encrypt_data rejects a zero-length buffer with
ERROR_INVALID_PATH, so applying the transform twice yields an error, not
`[]`. -/
theorem cipher_roundtrip_fails_on_empty_input :
    (encrypt_data [] [97]).bind (fun c => decrypt_data c [97]) =
      .error ERROR_INVALID_PATH ∧
    (Except.error ERROR_INVALID_PATH : Except Int (List Nat)) ≠ .ok [] :=
  ⟨rfl, by simp⟩

/-- C2 amended: for every non-empty byte sequence and non-empty password the
cipher transform succeeds, preserves the length, and applying it twice with
the same password restores the input exactly. -/
theorem cipher_roundtrip_nonempty (x p : List Nat) (hx : x ≠ []) (hp : p ≠ [])
    (hxb : ∀ b ∈ x, b < 256) (hpb : ∀ c ∈ p, c < 256) :
    encrypt_data x p = .ok (xorWithPassword x p) ∧
    (xorWithPassword x p).length = x.length ∧
    decrypt_data (xorWithPassword x p) p = .ok x := by
  have hxne : ¬ x.length = 0 := by simpa [List.length_eq_zero] using hx
  have hpne : ¬ p.length = 0 := by simpa [List.length_eq_zero] using hp
  have hlen := xorWithPassword_length x p
  have hcne : ¬ (xorWithPassword x p).length = 0 := by rw [hlen]; exact hxne
  refine ⟨by simp [encrypt_data, hxne, hpne], hlen, ?_⟩
  simp only [decrypt_data, hcne, if_false, hpne]
  rw [xorWithPassword_involutive x p hpb hxb]

/-- C2 witness: the byte `[5]` under password `"a"` (`[97]`) encrypts to
`[100]` and decrypts back to `[5]`. -/
theorem cipher_roundtrip_nonempty_witness :
    ([5] : List Nat) ≠ [] ∧ ([97] : List Nat) ≠ [] ∧
    (∀ b ∈ ([5] : List Nat), b < 256) ∧ (∀ c ∈ ([97] : List Nat), c < 256) ∧
    (encrypt_data [5] [97] = .ok (xorWithPassword [5] [97]) ∧
      (xorWithPassword [5] [97]).length = ([5] : List Nat).length ∧
      decrypt_data (xorWithPassword [5] [97]) [97] = .ok [5]) :=
  ⟨by simp, by simp, by simp, by simp,
    cipher_roundtrip_nonempty [5] [97] (by simp) (by simp) (by simp) (by simp)⟩

/-- C3 counterexample: encrypt_file writes no 9-byte header — a one-byte
file encrypts to the one-byte artifact `[100]`, which cannot begin with a
4-byte magic — and decrypt_file accepts a one-byte input (shorter than 9
bytes) with SUCCESS instead of rejecting it. -/
theorem encrypted_artifact_has_no_header_counterexample :
    encrypt_file [5] [97] false ENC_XOR = .ok [100] ∧
    ¬ 9 ≤ ([100] : List Nat).length ∧
    decrypt_file [0] [97] false = .ok [97] :=
  ⟨rfl, by simp, rfl⟩

/-- C3 amended: encrypt_file writes exactly the cipher-transformed payload —
no magic, flag or seed bytes, so the artifact's length equals the payload's —
and decrypt_file performs no length or magic validation and signals nothing
about wrong passwords: it XOR-decrypts whatever input it is given, which
round-trips the headerless artifact. -/
theorem encrypt_decrypt_file_headerless (content p : List Nat)
    (hc : content ≠ []) (hp : p ≠ [])
    (hcb : ∀ b ∈ content, b < 256) (hpb : ∀ c ∈ p, c < 256) :
    encrypt_file content p false ENC_XOR = .ok (xorWithPassword content p) ∧
    (xorWithPassword content p).length = content.length ∧
    decrypt_file (xorWithPassword content p) p false = .ok content := by
  have hcne : ¬ content.length = 0 := by simpa [List.length_eq_zero] using hc
  have hpne : ¬ p.length = 0 := by simpa [List.length_eq_zero] using hp
  refine ⟨?_, xorWithPassword_length content p, ?_⟩
  · simp [encrypt_file, encrypt_data, ENC_XOR, hcne, hpne]
  · simp only [decrypt_file, decrypt_data_part000, hpne, if_false, if_neg,
      Bool.false_eq_true]
    rw [xorWithPassword_involutive content p hpb hcb]

/-- C3 witness: the one-byte file `[5]` under password `"a"`. -/
theorem encrypt_decrypt_file_headerless_witness :
    ([5] : List Nat) ≠ [] ∧ ([97] : List Nat) ≠ [] ∧
    (∀ b ∈ ([5] : List Nat), b < 256) ∧ (∀ c ∈ ([97] : List Nat), c < 256) ∧
    (encrypt_file [5] [97] false ENC_XOR = .ok (xorWithPassword [5] [97]) ∧
      (xorWithPassword [5] [97]).length = ([5] : List Nat).length ∧
      decrypt_file (xorWithPassword [5] [97]) [97] false = .ok [5]) :=
  ⟨by simp, by simp, by simp, by simp,
    encrypt_decrypt_file_headerless [5] [97] (by simp) (by simp) (by simp) (by simp)⟩

/-! Helper lemmas for the library invariants. -/

lemma applyLibOp_count (library : EncryptionLibrary) (op : LibOp)
    (h : library.count = (library.records.length : Int)) :
    (applyLibOp library op).count = ((applyLibOp library op).records.length : Int) := by
  cases op with
  | insert m =>
    simp [applyLibOp, add_file_to_library, h]
  | remove i =>
    simp only [applyLibOp, remove_file_from_library]
    by_cases hrange : i < 0 ∨ library.count ≤ i
    · simpa [hrange] using h
    · have hidx : i.toNat < library.records.length := by omega
      simp only [hrange, if_false, hidx, if_true]
      rw [List.length_eraseIdx]
      simp only [hidx, if_true]
      omega

/-- C5: after any sequence of add_file_to_library / remove_file_from_library
operations starting from the freshly loaded empty library, the `count` field
equals the number of live records in the store. -/
theorem library_count_matches_live_records (ops : List LibOp) :
    (runLibOps ops).count = ((runLibOps ops).records.length : Int) := by
  suffices h : ∀ (ops : List LibOp) (library : EncryptionLibrary),
      library.count = (library.records.length : Int) →
      (ops.foldl applyLibOp library).count =
        ((ops.foldl applyLibOp library).records.length : Int) from
    h ops load_encryption_library (by simp [load_encryption_library])
  intro ops
  induction ops with
  | nil => intro library h; exact h
  | cons op rest ih =>
    intro library h
    exact ih (applyLibOp library op) (applyLibOp_count library op h)

/-- Invariant carried through the workflow runs: the ghost history of
assigned ids is strictly increasing, the live records' ids (in store order)
form a sublist of that history, and every assigned id is below the counter. -/
def WorkflowInv (s : EncryptionLibrary × List Nat) : Prop :=
  s.2.Pairwise (· < ·) ∧
  (s.1.records.map (fun m => m.encryption_id)).Sublist s.2 ∧
  ∀ id ∈ s.2, id < s.1.next_id

lemma applyWorkflowOp_inv (s : EncryptionLibrary × List Nat) (op : WorkflowOp)
    (h : WorkflowInv s) : WorkflowInv (applyWorkflowOp s op) := by
  obtain ⟨h1, h2, h3⟩ := h
  cases op with
  | encryptInsert m =>
    simp only [applyWorkflowOp, WorkflowInv, encrypt_file_workflow,
      add_file_to_library, SUCCESS, if_true, if_pos, reduceIte]
    refine ⟨?_, ?_, ?_⟩
    · rw [List.pairwise_append]
      exact ⟨h1, List.pairwise_singleton _ _,
        fun a ha b hb => by rw [List.mem_singleton] at hb; exact hb ▸ h3 a ha⟩
    · rw [List.map_append]
      exact List.Sublist.append h2 (by simp)
    · intro id hid
      rcases List.mem_append.mp hid with hold | hnew
      · exact Nat.lt_succ_of_lt (h3 id hold)
      · rw [List.mem_singleton] at hnew
        exact hnew ▸ Nat.lt_succ_self _
  | remove i =>
    simp only [applyWorkflowOp, WorkflowInv, remove_file_from_library]
    by_cases hrange : i < 0 ∨ s.1.count ≤ i
    · simpa [hrange] using ⟨h1, h2, h3⟩
    · by_cases hidx : i.toNat < s.1.records.length
      · simp only [hrange, if_false, hidx, if_true]
        refine ⟨h1, ?_, h3⟩
        exact ((List.eraseIdx_sublist _ _).map _).trans h2
      · simpa [hrange, hidx] using ⟨h1, h2, h3⟩

/-- C6: over any sequence of encrypt-and-insert and remove operations from a
fresh library, the ids assigned at insertion time form a strictly increasing
sequence — so each id is assigned exactly once and an id deleted by a remove
is never assigned again — the live records carry (unmutated) a subsequence of
exactly those assigned ids, and every assigned id stays below the
monotonically increasing `next_id` counter. -/
theorem encryption_ids_monotone_unique (ops : List WorkflowOp) :
    (runWorkflow ops).2.Pairwise (· < ·) ∧
    ((runWorkflow ops).1.records.map (fun m => m.encryption_id)).Sublist
      (runWorkflow ops).2 ∧
    ∀ id ∈ (runWorkflow ops).2, id < (runWorkflow ops).1.next_id := by
  suffices h : ∀ (ops : List WorkflowOp) (s : EncryptionLibrary × List Nat),
      WorkflowInv s → WorkflowInv (ops.foldl applyWorkflowOp s) from
    h ops (load_encryption_library, []) (by simp [WorkflowInv, load_encryption_library])
  intro ops
  induction ops with
  | nil => intro s h; exact h
  | cons op rest ih =>
    intro s h
    exact ih (applyWorkflowOp s op) (applyWorkflowOp_inv s op h)

instance (records : List FileMetadata) : Decidable (sortedByName records) := by
  unfold sortedByName
  infer_instance

/-- Record with the given original filename and every other field defaulted,
used to exhibit libraries the commented-out comparator cannot sort. -/
def namedMeta (name : List Nat) : FileMetadata :=
  ⟨name, [], 0, 0, 0, 0, false⟩

/-- C4: sort_library_by_name cannot order filenames.  cmp_name's comparison
is commented out, so the value qsort receives is independent of the two
records; hence for any qsort — any procedure that permutes its input and,
when the comparator's answers are all equal to the same constant, chooses the
rearrangement from those answers alone — some library comes out of the sort
with its original filenames not in case-insensitive non-decreasing order.
The two-record libraries `["b", "a"]` and `["a", "b"]` cannot both be
sorted, since the comparator forces the same rearrangement on both. -/
theorem sort_library_by_name_cannot_order_names
    (qsortC : (FileMetadata → FileMetadata → Int) → List FileMetadata → List FileMetadata)
    (garbage : Int)
    (hperm : ∀ xs, List.Perm (qsortC (cmp_name garbage) xs) xs)
    (hdriven : ∃ σ : List Nat, ∀ xs : List FileMetadata, xs.length = 2 →
        qsortC (cmp_name garbage) xs = σ.map (fun i => xs.getD i default)) :
    ¬ ∀ library : EncryptionLibrary,
        sortedByName ((sort_library_by_name qsortC garbage library).records) := by
  intro h
  obtain ⟨σ, hσ⟩ := hdriven
  have hBA := h ⟨[namedMeta [98], namedMeta [97]], 2, false, 1⟩
  have hAB := h ⟨[namedMeta [97], namedMeta [98]], 2, false, 1⟩
  simp only [sort_library_by_name] at hBA hAB
  norm_num at hBA hAB
  rw [hσ [namedMeta [98], namedMeta [97]] rfl] at hBA
  rw [hσ [namedMeta [97], namedMeta [98]] rfl] at hAB
  have hp := hperm [namedMeta [98], namedMeta [97]]
  rw [hσ [namedMeta [98], namedMeta [97]] rfl] at hp
  have hlen : σ.length = 2 := by simpa using hp.length_eq
  rcases σ with _ | ⟨i, _ | ⟨j, rest⟩⟩
  · simp at hlen
  · simp at hlen
  · have hrest : rest = [] := by simpa using hlen
    subst hrest
    simp only [List.map_cons, List.map_nil] at hBA hAB hp
    rcases i with _ | _ | i <;> rcases j with _ | _ | j <;>
      simp only [Nat.succ_eq_add_one, List.getD_cons_zero, List.getD_cons_succ,
        List.getD_nil] at hBA hAB hp <;>
      first
        | exact absurd hp (by decide)
        | exact absurd hBA (by decide)
        | exact absurd hAB (by decide)

/-- C4 witness: the identity rearrangement (a qsort that finds nothing to
swap when every comparison returns the same constant) leaves some library
unsorted — so the universally sorted outcome the claim asserts is refuted. -/
theorem sort_library_by_name_cannot_order_names_witness :
    ¬ ∀ library : EncryptionLibrary,
        sortedByName ((sort_library_by_name (fun _ xs => xs) 0 library).records) :=
  sort_library_by_name_cannot_order_names (fun _ xs => xs) 0
    (fun xs => List.Perm.refl xs)
    ⟨[0, 1], by
      intro xs hxs
      rcases xs with _ | ⟨a, _ | ⟨b, _ | rest⟩⟩ <;> simp_all⟩
